import Mathlib

/-!
Verification of the p2plab core orchestration logic: the scenario planner
(`scenarios.Plan`, `scenarios.AddOptionsFromDefinition`), the node mesh
connector (`nodes.Connect`) and the benchmark orchestrator
(`benchmarkrouter.postBenchmarksCreate`), shallowly embedded in Lean.
External collaborators (query engine, action resolver, transformers, plan
executor, store) are passed in as function parameters, exactly where the Go
code receives them through interfaces; Go hash maps are embedded as
association lists with Go's assignment semantics; the concurrent fan-outs
(errgroup) are sequentialized in iteration order, returning the first error.
-/

namespace P2plab

/-- Errors are opaque strings (Go `error` values rendered by `Error()`). -/
abbrev Err := String

/-- Error wrapping from `github.com/pkg/errors`: `errors.Wrap(err, msg)`
renders as `msg ++ ": " ++ err`. -/
def wrapErr (msg : String) (e : Err) : Err := msg ++ ": " ++ e

/-- `metadata.Task`: a task kind plus an opaque subject string. -/
structure Task where
  type : String
  subject : String
  deriving DecidableEq

/-- Modelled from the spec: `metadata.TaskConnect` is not among the source
files; the spec names a connect-to-peers task kind, embedded as the string
tag of that kind. -/
def TaskConnect : String := "connect"

/-- Go map assignment `m[k] = v` on an association list: replace the entry
for `k` in place if present, otherwise append a new entry. -/
def mapInsert {α : Type} : List (String × α) → String → α → List (String × α)
  | [], k, v => [(k, v)]
  | p :: rest, k, v => if p.1 == k then (k, v) :: rest else p :: mapInsert rest k v

/-- Go map read `m[k]` on an association list. -/
def mapLookup {α : Type} : List (String × α) → String → Option α
  | [], _ => none
  | p :: rest, k => if p.1 == k then some p.2 else mapLookup rest k

/-- One add option handed to a transformer (`p2plab.AddOption`,
reconstructed from the `With...` constructors applied in
`AddOptionsFromDefinition`). -/
inductive AddOption where
  | withLayout (s : String)
  | withChunker (s : String)
  | withRawLeaves (b : Bool)
  | withHashFunc (s : String)
  deriving DecidableEq

/-- `metadata.ObjectDefinition`: the fields read by the planner. -/
structure ObjectDefinition where
  type : String
  source : String
  layout : String
  chunker : String
  rawLeaves : Bool
  hashFunc : String
  deriving DecidableEq

/-- `scenarios.AddOptionsFromDefinition`: build the option slice, appending
each option only under its guard. -/
def AddOptionsFromDefinition (odef : ObjectDefinition) : List AddOption :=
  let opts : List AddOption := []
  let opts := if odef.layout ≠ "" then opts ++ [AddOption.withLayout odef.layout] else opts
  let opts := if odef.chunker ≠ "" then opts ++ [AddOption.withChunker odef.chunker] else opts
  let opts := if odef.rawLeaves then opts ++ [AddOption.withRawLeaves true] else opts
  let opts := if odef.hashFunc ≠ "" then opts ++ [AddOption.withHashFunc odef.hashFunc] else opts
  opts

/-- A transformer (`p2plab.Transformer.Transform` with context and peer held
ambient): source and options to a CID, or an error. -/
abbrev Transformer := String → List AddOption → Except Err String

/-- `peer.PeerInfo` as consumed by `nodes.Connect`: a peer identifier plus
the reported transport addresses. -/
structure PeerInfo where
  id : String
  addrs : List String
  deriving DecidableEq

/-- A cluster node as the embedded code observes it: the labeled identity
used by query matching, the metadata address used in error messages, the
outcome of its `PeerInfo` call, and the outcome of running a task on it. -/
structure Node where
  id : String
  labels : List String
  address : String
  peerInfo : Except Err PeerInfo
  runErr : Option Err

/-- Modelled from the spec: `metadata.ScenarioDefinition` is not among the
source files. Per the spec a scenario definition holds named object
definitions plus seed and benchmark phases "expressed as label-query →
action pairs" that are processed "in the definition's own order", so each
table is embedded as an ordered association list. -/
structure ScenarioDefinition where
  objects : List (String × ObjectDefinition)
  seed : List (String × String)
  benchmark : List (String × String)

/-- `metadata.ScenarioPlan`: resolved objects plus per-node seed and
benchmark task maps. -/
structure ScenarioPlan where
  objects : List (String × String)
  seed : List (String × Task)
  benchmark : List (String × Task)
  deriving DecidableEq

/-- The Go triple returned by `scenarios.Plan`: the plan, the nilable
query-audit map, and the nilable error. -/
structure PlanResult where
  plan : ScenarioPlan
  queries : Option (List (String × List String))
  err : Option Err
  deriving DecidableEq

/-- Object materialization loop of `scenarios.Plan`: for each definition get
the transformer for its type, transform the source with the derived options,
and store the CID under the object's name. The errgroup fan-out is
sequentialized in iteration order; on failure the partially filled table and
the error are returned, mirroring `objects.Wait()` reporting the first
error while `plan.Objects` keeps the writes already made. -/
def materializeObjects (tsGet : String → Except Err Transformer) :
    List (String × ObjectDefinition) → List (String × String) →
    List (String × String) × Option Err
  | [], acc => (acc, none)
  | (name, odef) :: rest, acc =>
    match tsGet odef.type with
    | .error e => (acc, some e)
    | .ok t =>
      match t odef.source (AddOptionsFromDefinition odef) with
      | .error e => (acc, some e)
      | .ok c => materializeObjects tsGet rest (mapInsert acc name c)

/-- Body of one seed-loop iteration of `scenarios.Plan`: parse the query,
match it, parse the action against the objects table, and compute the
per-node task map over the matched nodes. -/
def seedStep {Q A : Type} (queryParse : String → Except Err Q)
    (queryMatch : Q → List Node → Except Err (List Node))
    (actionParse : List (String × String) → String → Except Err A)
    (actionTasks : A → List Node → Except Err (List (String × Task)))
    (objects : List (String × String)) (lset : List Node)
    (qa : String × String) : Except Err (List (String × Task)) :=
  match queryParse qa.1 with
  | .error e => .error e
  | .ok qry =>
    match queryMatch qry lset with
    | .error e => .error e
    | .ok mset =>
      match actionParse objects qa.2 with
      | .error e => .error e
      | .ok action => actionTasks action mset

/-- Seed loop of `scenarios.Plan`: each iteration assigns its whole task map
(`plan.Seed = taskMap`), discarding the accumulator; on failure the
accumulator as of the failing entry is kept and the error returned. -/
def seedLoop {Q A : Type} (queryParse : String → Except Err Q)
    (queryMatch : Q → List Node → Except Err (List Node))
    (actionParse : List (String × String) → String → Except Err A)
    (actionTasks : A → List Node → Except Err (List (String × Task)))
    (objects : List (String × String)) (lset : List Node) :
    List (String × String) → List (String × Task) →
    List (String × Task) × Option Err
  | [], seed => (seed, none)
  | qa :: rest, seed =>
    match seedStep queryParse queryMatch actionParse actionTasks objects lset qa with
    | .error e => (seed, some e)
    | .ok taskMap => seedLoop queryParse queryMatch actionParse actionTasks objects lset rest taskMap

/-- Body of one benchmark-loop iteration of `scenarios.Plan`: like
`seedStep` but also yielding the query's canonical string and the matched
node identifiers for the audit map. -/
def benchStep {Q A : Type} (queryParse : String → Except Err Q)
    (queryString : Q → String)
    (queryMatch : Q → List Node → Except Err (List Node))
    (actionParse : List (String × String) → String → Except Err A)
    (actionTasks : A → List Node → Except Err (List (String × Task)))
    (objects : List (String × String)) (lset : List Node)
    (qa : String × String) :
    Except Err (String × List String × List (String × Task)) :=
  match queryParse qa.1 with
  | .error e => .error e
  | .ok qry =>
    match queryMatch qry lset with
    | .error e => .error e
    | .ok mset =>
      match actionParse objects qa.2 with
      | .error e => .error e
      | .ok action =>
        match actionTasks action mset with
        | .error e => .error e
        | .ok taskMap => .ok (queryString qry, mset.map (fun n => n.id), taskMap)

/-- Benchmark loop of `scenarios.Plan`: like the seed loop, but each
iteration also records `queries[qry.String()] = ids` into the audit map. -/
def benchLoop {Q A : Type} (queryParse : String → Except Err Q)
    (queryString : Q → String)
    (queryMatch : Q → List Node → Except Err (List Node))
    (actionParse : List (String × String) → String → Except Err A)
    (actionTasks : A → List Node → Except Err (List (String × Task)))
    (objects : List (String × String)) (lset : List Node) :
    List (String × String) → List (String × Task) → List (String × List String) →
    List (String × Task) × List (String × List String) × Option Err
  | [], benchmark, queries => (benchmark, queries, none)
  | qa :: rest, benchmark, queries =>
    match benchStep queryParse queryString queryMatch actionParse actionTasks objects lset qa with
    | .error e => (benchmark, queries, some e)
    | .ok r =>
      benchLoop queryParse queryString queryMatch actionParse actionTasks objects lset
        rest r.2.2 (mapInsert queries r.1 r.2.1)

/-- `scenarios.Plan`: materialize objects, then the sequential seed loop,
then the sequential benchmark loop. Every error path returns the partially
built plan, a nil audit map, and the error; the success path returns the
plan, the audit map, and nil. -/
def Plan {Q A : Type} (queryParse : String → Except Err Q)
    (queryString : Q → String)
    (queryMatch : Q → List Node → Except Err (List Node))
    (actionParse : List (String × String) → String → Except Err A)
    (actionTasks : A → List Node → Except Err (List (String × Task)))
    (tsGet : String → Except Err Transformer)
    (sdef : ScenarioDefinition) (lset : List Node) : PlanResult :=
  match materializeObjects tsGet sdef.objects [] with
  | (objs, some e) => ⟨⟨objs, [], []⟩, none, some e⟩
  | (objs, none) =>
    match seedLoop queryParse queryMatch actionParse actionTasks objs lset sdef.seed [] with
    | (seed, some e) => ⟨⟨objs, seed, []⟩, none, some e⟩
    | (seed, none) =>
      match benchLoop queryParse queryString queryMatch actionParse actionTasks objs lset
          sdef.benchmark [] [] with
      | (bench, _, some e) => ⟨⟨objs, seed, bench⟩, none, some e⟩
      | (bench, qs, none) => ⟨⟨objs, seed, bench⟩, some qs, none⟩

/-- Address-collection phase of `nodes.Connect` (the errgroup fan-out
sequentialized in slice order): for each node fetch its peer info; a node
with zero addresses is a hard error; otherwise its dial string
`addrs[0] ++ "/p2p/" ++ id` is placed at the node's own index of the
results list. -/
def collectPeerAddrs : List Node → Except Err (List String)
  | [] => .ok []
  | n :: rest =>
    match n.peerInfo with
    | .error e => .error e
    | .ok pi =>
      match pi.addrs with
      | [] => .error ("peer \"" ++ n.address ++ "\" has zero addresses")
      | a :: _ =>
        match collectPeerAddrs rest with
        | .error e => .error e
        | .ok addrs => .ok ((a ++ "/p2p/" ++ pi.id) :: addrs)

/-- First error in a list of per-node run outcomes (`connectPeers.Wait()`
of the broadcast phase, sequentialized in slice order). -/
def firstSome : List (Option Err) → Option Err
  | [] => none
  | some e :: _ => some e
  | none :: rest => firstSome rest

/-- `nodes.Connect`: collect every node's dial string, then broadcast to
every node one connect task whose subject is the comma-joined dial string
list. The result is the list of dispatched (node, task) pairs — empty when
the collection phase fails, so the broadcast is never entered — together
with the operation's error. -/
def Connect (ns : List Node) : List (Node × Task) × Option Err :=
  match collectPeerAddrs ns with
  | .error e => ([], some e)
  | .ok peerAddrs =>
    let t : Task := ⟨TaskConnect, String.intercalate "," peerAddrs⟩
    (ns.map (fun n => (n, t)), firstSome (ns.map (fun n => n.runErr)))

/-- The dial string a node contributes when its peer info is available
(spec-side projection used to state the connect theorem). -/
def dialString (n : Node) : String :=
  match n.peerInfo with
  | .ok pi => pi.addrs.headD "" ++ "/p2p/" ++ pi.id
  | .error _ => ""

/-- Decidable test: the node's peer info succeeded and reports at least one
address. -/
def hasAddrs (n : Node) : Bool :=
  match n.peerInfo with
  | .ok pi => !pi.addrs.isEmpty
  | .error _ => false

/-- Decidable test: the node's peer info succeeded but reports zero
addresses. -/
def reportsZeroAddrs (n : Node) : Bool :=
  match n.peerInfo with
  | .ok pi => pi.addrs.isEmpty
  | .error _ => false

/-- `metadata.Scenario` as carried by the benchmark record: its id and its
definition. -/
structure Scenario where
  id : String
  definition : ScenarioDefinition

/-- `metadata.Cluster` as carried by the benchmark record: its id. -/
structure Cluster where
  id : String

/-- Modelled from the spec: `metadata.BenchmarkRunning` is not among the
source files; the spec's `Running` status tag. -/
def BenchmarkRunning : String := "Running"

/-- Modelled from the spec: `metadata.BenchmarkDone` is not among the
source files; the spec's `Done` status tag. -/
def BenchmarkDone : String := "Done"

/-- `metadata.Benchmark`: the record persisted by the orchestrator. -/
structure Benchmark where
  id : String
  status : String
  cluster : Cluster
  scenario : Scenario
  plan : ScenarioPlan
  labels : List String

/-- `metadata.Report`: summary total time and optional trace link, per-node
results (opaque payloads), computed aggregates (opaque), and the nilable
query-audit map. -/
structure Report where
  totalTime : Nat
  nodes : List (String × String)
  aggregates : List (String × String)
  queries : Option (List (String × List String))
  trace : String

/-- `scenarios.Run`'s result (`Execution`): start and end times and the
per-node report (opaque payloads; the trace span is elided). -/
structure Execution where
  start : Nat
  stop : Nat
  report : List (String × String)

/-- The store's visible state: benchmark records and reports, both keyed by
benchmark id. -/
structure DB where
  benchmarks : List (String × Benchmark)
  reports : List (String × Report)

/-- Failure injection for the three store writes the orchestrator issues. -/
structure DbFaults where
  createBenchmarkErr : Option Err
  createReportErr : Option Err
  updateBenchmarkErr : Option Err

/-- Modelled from the spec: `metadata.DB.CreateBenchmark` is not among the
source files; per the spec's store contract it persists the record (keyed by
its id, no uniqueness check) or fails. -/
def createBenchmark (db : DB) (f : DbFaults) (b : Benchmark) : Except Err DB :=
  match f.createBenchmarkErr with
  | some e => .error e
  | none => .ok { db with benchmarks := mapInsert db.benchmarks b.id b }

/-- Modelled from the spec: `metadata.DB.UpdateBenchmark` is not among the
source files; it rewrites the record under its id or fails. -/
def updateBenchmark (db : DB) (f : DbFaults) (b : Benchmark) : Except Err DB :=
  match f.updateBenchmarkErr with
  | some e => .error e
  | none => .ok { db with benchmarks := mapInsert db.benchmarks b.id b }

/-- Modelled from the spec: `metadata.DB.CreateReport` is not among the
source files; it stores the report under the benchmark id or fails. -/
def createReport (db : DB) (f : DbFaults) (bid : String) (r : Report) : Except Err DB :=
  match f.createReportErr with
  | some e => .error e
  | none => .ok { db with reports := mapInsert db.reports bid r }

/-- Modelled from the spec: the transactional `db.Update` of the store
(bbolt), whose contract the spec states as "one atomic multi-write
transaction" — if the body fails, every write inside it is rolled back and
the state is unchanged; otherwise the body's final state is committed. -/
def dbUpdate (db : DB) (body : DB → Except Err DB) : DB × Option Err :=
  match body db with
  | .ok db2 => (db2, none)
  | .error e => (db, some e)

/-- The seeder peer as the orchestrator reads it: its host addresses and
peer id, from which the advertised seeder dial strings are built. -/
structure Seeder where
  id : String
  addrs : List String

/-- All inputs of one `postBenchmarksCreate` invocation: the parsed form
values, the clock reading, and the injected collaborators (store reads,
node update/build, query and action engines, transformers, plan executor,
aggregator, tracing), mirroring the router struct's dependencies. -/
structure HandlerInput (Q A : Type) where
  clusterId : String
  scenarioId : String
  noReset : Bool
  nowNano : Nat
  getScenario : String → Except Err Scenario
  getCluster : String → Except Err Cluster
  listNodes : String → Except Err (List Node)
  updateRes : Option Err
  queryParse : String → Except Err Q
  queryString : Q → String
  queryMatch : Q → List Node → Except Err (List Node)
  actionParse : List (String × String) → String → Except Err A
  actionTasks : A → List Node → Except Err (List (String × Task))
  tsGet : String → Except Err Transformer
  faults : DbFaults
  seeder : Seeder
  runScenario : List Node → ScenarioPlan → List String → Except Err Execution
  computeAggregates : List (String × String) → List (String × String)
  jaegerTrace : Option String

/-- The benchmark identifier `fmt.Sprintf("%s-%s-%d", cid, sid,
time.Now().UnixNano())`. -/
def benchmarkId {Q A : Type} (inp : HandlerInput Q A) : String :=
  inp.clusterId ++ "-" ++ inp.scenarioId ++ "-" ++ toString inp.nowNano

/-- The reset-and-connect phase guarded by `!noReset`: `nodes.Update` then
`nodes.Connect`, each error wrapped; `none` when skipped or both succeed. -/
def resetConnectErr {Q A : Type} (inp : HandlerInput Q A) (ns : List Node) : Option Err :=
  if inp.noReset then none
  else
    match inp.updateRes with
    | some e => some (wrapErr "failed to update cluster" e)
    | none =>
      match (Connect ns).2 with
      | some e => some (wrapErr "failed to connect cluster" e)
      | none => none

/-- The planner invocation of the handler: `scenarios.Plan` applied to the
scenario's definition and the cluster's labeled node collection. -/
def planOf {Q A : Type} (inp : HandlerInput Q A) (scenario : Scenario)
    (ns : List Node) : PlanResult :=
  Plan inp.queryParse inp.queryString inp.queryMatch inp.actionParse inp.actionTasks
    inp.tsGet scenario.definition ns

/-- The benchmark record built right after planning: id, `Running` status,
the fetched cluster and scenario, the computed plan, and the three labels. -/
def persistedBenchmark {Q A : Type} (inp : HandlerInput Q A) (scenario : Scenario)
    (cluster : Cluster) (plan : ScenarioPlan) : Benchmark :=
  { id := benchmarkId inp
    status := BenchmarkRunning
    cluster := cluster
    scenario := scenario
    plan := plan
    labels := [benchmarkId inp, inp.clusterId, inp.scenarioId] }

/-- The seeder's advertised dial strings. -/
def seederAddrs {Q A : Type} (inp : HandlerInput Q A) : List String :=
  inp.seeder.addrs.map (fun a => a ++ "/p2p/" ++ inp.seeder.id)

/-- The report assembled after execution: total time, per-node results, the
planner's audit map, computed aggregates, and the optional trace link. -/
def mkReport {Q A : Type} (inp : HandlerInput Q A) (execution : Execution)
    (pres : PlanResult) : Report :=
  { totalTime := execution.stop - execution.start
    nodes := execution.report
    aggregates := inp.computeAggregates execution.report
    queries := pres.queries
    trace := inp.jaegerTrace.getD "" }

/-- Body of the final transaction: create the report, then flip the
benchmark's status to `Done` and rewrite the record; errors wrapped as in
the source. -/
def txBody {Q A : Type} (inp : HandlerInput Q A) (benchmark : Benchmark)
    (report : Report) (d : DB) : Except Err DB :=
  match createReport d inp.faults benchmark.id report with
  | .error e => .error (wrapErr "failed to create report" e)
  | .ok d1 =>
    match updateBenchmark d1 inp.faults { benchmark with status := BenchmarkDone } with
    | .error e => .error (wrapErr "failed to update benchmark" e)
    | .ok d2 => .ok d2

/-- Tail of the handler after the benchmark record is persisted: execute the
plan (abort wrapped on failure, leaving the store as it is), then assemble
the report and run the final transaction. -/
def finishRun {Q A : Type} (inp : HandlerInput Q A) (db1 : DB)
    (benchmark : Benchmark) (pres : PlanResult) (ns : List Node) : DB × Option Err :=
  match inp.runScenario ns pres.plan (seederAddrs inp) with
  | .error e => (db1, some (wrapErr "failed to run scenario plan" e))
  | .ok execution => dbUpdate db1 (txBody inp benchmark (mkReport inp execution pres))

/-- `benchmarkrouter.postBenchmarksCreate`: fetch scenario and cluster,
compute the benchmark id, list the cluster's nodes, optionally reset and
mesh-connect them, plan the scenario, persist the `Running` benchmark
record, then execute and run the final report-and-status transaction. The
result is the store's final state plus the handler's returned error. -/
def postBenchmarksCreate {Q A : Type} (inp : HandlerInput Q A) (db : DB) :
    DB × Option Err :=
  match inp.getScenario inp.scenarioId with
  | .error e => (db, some e)
  | .ok scenario =>
    match inp.getCluster inp.clusterId with
    | .error e => (db, some e)
    | .ok cluster =>
      match inp.listNodes inp.clusterId with
      | .error e => (db, some e)
      | .ok ns =>
        match resetConnectErr inp ns with
        | some e => (db, some e)
        | none =>
          let pres := planOf inp scenario ns
          match pres.err with
          | some e => (db, some (wrapErr "failed to create scenario plan" e))
          | none =>
            let benchmark := persistedBenchmark inp scenario cluster pres.plan
            match createBenchmark db inp.faults benchmark with
            | .error e => (db, some e)
            | .ok db1 => finishRun inp db1 benchmark pres ns

/-- Audit computation written from the spec's words for benchmark planning:
"records, for each processed query, its canonical string and the list of
matched node identifiers into the audit map — this audit map is returned to
the caller independently of the plan". It consults only the query engine,
never the action resolver, and is compared against the audit map the
embedded `Plan` actually returns. -/
def auditMapSpec {Q : Type} (queryParse : String → Except Err Q)
    (queryString : Q → String)
    (queryMatch : Q → List Node → Except Err (List Node)) (lset : List Node) :
    List (String × String) → List (String × List String) →
    Option (List (String × List String))
  | [], acc => some acc
  | qa :: rest, acc =>
    match queryParse qa.1 with
    | .error _ => none
    | .ok qry =>
      match queryMatch qry lset with
      | .error _ => none
      | .ok mset =>
        auditMapSpec queryParse queryString queryMatch lset rest
          (mapInsert acc (queryString qry) (mset.map (fun n => n.id)))

/-! Concrete collaborator instances and small clusters used to exercise the
embedded operations on closed inputs. Queries are their own canonical
strings and match by label membership; actions assign one task per matched
node carrying the action expression as subject. -/

/-- Query parser that accepts every expression as itself. -/
def qpOk : String → Except Err String := fun s => .ok s

/-- Canonical form of a concrete query: the expression itself. -/
def qsId : String → String := fun s => s

/-- Query parser that rejects every expression. -/
def qpFail : String → Except Err String := fun _ => .error "parse-fail"

/-- Concrete matcher: keep the nodes carrying the query as a label. -/
def qmByLabel : String → List Node → Except Err (List Node) :=
  fun q ls => .ok (ls.filter (fun n => n.labels.contains q))

/-- Action parser that accepts every expression as itself. -/
def apOk : List (String × String) → String → Except Err String := fun _ a => .ok a

/-- Concrete task assignment: one task per matched node, kind `"seed"`,
subject the action expression. -/
def atPerNode : String → List Node → Except Err (List (String × Task)) :=
  fun a ns => .ok (ns.map (fun n => (n.id, ⟨"seed", a⟩)))

/-- Transformer table whose transformers derive a CID from the source. -/
def tsOk : String → Except Err Transformer :=
  fun _ => .ok (fun src _ => .ok ("cid-" ++ src))

/-- Transformer table failing for the object type `"bad"`. -/
def tsFailBad : String → Except Err Transformer :=
  fun ty => if ty == "bad" then .error "boom" else .ok (fun src _ => .ok ("cid-" ++ src))

/-- Node `A`, labeled `role=x`, one address. -/
def nodeA : Node := ⟨"A", ["role=x"], "addrA", .ok ⟨"pidA", ["ip4A"]⟩, none⟩

/-- Node `B`, labeled `role=x`, one address. -/
def nodeB : Node := ⟨"B", ["role=x"], "addrB", .ok ⟨"pidB", ["ip4B"]⟩, none⟩

/-- Node `C`, labeled `role=y`, one address. -/
def nodeC : Node := ⟨"C", ["role=y"], "addrC", .ok ⟨"pidC", ["ip4C"]⟩, none⟩

/-- Node `Z`, whose peer info succeeds but reports zero addresses. -/
def nodeZ : Node := ⟨"Z", ["role=z"], "addrZ", .ok ⟨"pidZ", []⟩, none⟩

/-- The three-node cluster of the spec's seed-overwrite example. -/
def lsetABC : List Node := [nodeA, nodeB, nodeC]

/-- Scenario with two seed entries matching disjoint node sets. -/
def sdefSeedTwo : ScenarioDefinition :=
  ⟨[], [("role=x", "taskFoo"), ("role=y", "taskBar")], []⟩

/-- Scenario with two benchmark entries and nothing else. -/
def sdefBenchTwo : ScenarioDefinition :=
  ⟨[], [], [("role=x", "taskFoo"), ("role=y", "taskBar")]⟩

/-- Scenario with two well-typed object definitions. -/
def sdefObjsTwo : ScenarioDefinition :=
  ⟨[("o1", ⟨"ok", "s1", "", "", false, ""⟩), ("o2", ⟨"ok", "s2", "", "", false, ""⟩)], [], []⟩

/-- Scenario whose single object definition has the failing type `"bad"`. -/
def sdefObjBad : ScenarioDefinition :=
  ⟨[("o1", ⟨"bad", "s1", "", "", false, ""⟩)], [], []⟩

/-- Concrete scenario record used by the orchestrator fixtures. -/
def scenC : Scenario := ⟨"scen", sdefSeedTwo⟩

/-- Concrete cluster record used by the orchestrator fixtures. -/
def clusC : Cluster := ⟨"clus"⟩

/-- An empty store. -/
def dbEmpty : DB := ⟨[], []⟩

/-- No injected store failures. -/
def noFaults : DbFaults := ⟨none, none, none⟩

/-- Injected failure of the benchmark update inside the final transaction. -/
def faultsUB : DbFaults := ⟨none, none, some "ub-fail"⟩

/-- Concrete seeder peer. -/
def seederC : Seeder := ⟨"pidS", ["ipS"]⟩

/-- Concrete execution result. -/
def execC : Execution := ⟨5, 17, [("A", "ok")]⟩

/-- A fully successful orchestrator invocation over the three-node cluster. -/
def baseInput : HandlerInput String String where
  clusterId := "clus"
  scenarioId := "scen"
  noReset := true
  nowNano := 42
  getScenario := fun _ => .ok scenC
  getCluster := fun _ => .ok clusC
  listNodes := fun _ => .ok lsetABC
  updateRes := none
  queryParse := qpOk
  queryString := qsId
  queryMatch := qmByLabel
  actionParse := apOk
  actionTasks := atPerNode
  tsGet := tsOk
  faults := noFaults
  seeder := seederC
  runScenario := fun _ _ _ => .ok execC
  computeAggregates := fun r => r
  jaegerTrace := none

/-- Like `baseInput` but plan execution fails. -/
def runFailInput : HandlerInput String String :=
  { baseInput with runScenario := fun _ _ _ => .error "exec-fail" }

/-- Like `baseInput` but the final benchmark update fails inside the
transaction. -/
def ubFailInput : HandlerInput String String :=
  { baseInput with faults := faultsUB }

/-! Helper lemmas about the association-map operations. -/

theorem mapLookup_mapInsert_self {α : Type} (m : List (String × α)) (k : String) (v : α) :
    mapLookup (mapInsert m k v) k = some v := by
  induction m with
  | nil => simp [mapInsert, mapLookup]
  | cons p rest ih =>
    cases hpk : p.1 == k with
    | true => simp [mapInsert, hpk, mapLookup]
    | false => simp [mapInsert, hpk, mapLookup, ih]

theorem mapLookup_mapInsert_ne {α : Type} (m : List (String × α)) (k k2 : String)
    (v : α) (h : k ≠ k2) : mapLookup (mapInsert m k v) k2 = mapLookup m k2 := by
  induction m with
  | nil => simp [mapInsert, mapLookup, h]
  | cons p rest ih =>
    cases hpk : p.1 == k with
    | true =>
      have hp : p.1 = k := by simpa using hpk
      simp [mapInsert, hpk, mapLookup, h, hp]
    | false => simp [mapInsert, hpk, mapLookup, ih]

theorem length_mapInsert_of_not_mem {α : Type} (m : List (String × α)) (k : String)
    (v : α) (h : mapLookup m k = none) : (mapInsert m k v).length = m.length + 1 := by
  induction m with
  | nil => simp [mapInsert]
  | cons p rest ih =>
    simp only [mapLookup] at h
    cases hpk : p.1 == k with
    | true => simp [hpk] at h
    | false =>
      rw [hpk] at h
      simp only [Bool.false_eq_true, if_false] at h
      simp [mapInsert, hpk, ih h]

theorem mapLookup_mapInsert_isSome {α : Type} (m : List (String × α)) (k k2 : String)
    (v : α) (h : (mapLookup m k2).isSome = true) :
    (mapLookup (mapInsert m k v) k2).isSome = true := by
  by_cases hk : k = k2
  · subst hk; simp [mapLookup_mapInsert_self]
  · rw [mapLookup_mapInsert_ne m k k2 v hk]; exact h

/-! C8 — add options derived from an object definition. -/

/-- C8: for every object definition, the option list passed to the transform
collaborator contains the layout, chunker, raw-leaves and hash-function
options each exactly when the corresponding field is explicitly set
(non-empty string, or `true` for the raw-leaves flag), and nothing else; an
unset field contributes no option. -/
theorem addOptions_only_explicit_fields (odef : ObjectDefinition) :
    AddOptionsFromDefinition odef =
      (if odef.layout ≠ "" then [AddOption.withLayout odef.layout] else []) ++
      (if odef.chunker ≠ "" then [AddOption.withChunker odef.chunker] else []) ++
      (if odef.rawLeaves then [AddOption.withRawLeaves true] else []) ++
      (if odef.hashFunc ≠ "" then [AddOption.withHashFunc odef.hashFunc] else []) ∧
    ((∃ s, AddOption.withLayout s ∈ AddOptionsFromDefinition odef) ↔ odef.layout ≠ "") ∧
    ((∃ s, AddOption.withChunker s ∈ AddOptionsFromDefinition odef) ↔ odef.chunker ≠ "") ∧
    ((∃ b, AddOption.withRawLeaves b ∈ AddOptionsFromDefinition odef) ↔ odef.rawLeaves = true) ∧
    ((∃ s, AddOption.withHashFunc s ∈ AddOptionsFromDefinition odef) ↔ odef.hashFunc ≠ "") := by
  unfold AddOptionsFromDefinition
  split_ifs <;> simp_all

/-! C2 and C4 — the node mesh connector. -/

theorem collectPeerAddrs_err_of_zero (ns : List Node)
    (h : ns.any reportsZeroAddrs = true) : ∃ e, collectPeerAddrs ns = .error e := by
  induction ns with
  | nil => simp at h
  | cons n rest ih =>
    simp only [List.any_cons, Bool.or_eq_true] at h
    unfold collectPeerAddrs
    cases hpi : n.peerInfo with
    | error e => simp
    | ok pi =>
      cases ha : pi.addrs with
      | nil => simp [ha]
      | cons a as =>
        rcases h with h | h
        · exfalso; simp [reportsZeroAddrs, hpi, ha] at h
        · rcases ih h with ⟨e, he⟩
          simp [ha, he]

/-- C2: in every node collection in which some node reports zero transport
addresses, mesh connect fails and dispatches no connect task to any node:
the broadcast phase is never entered. -/
theorem connect_zero_addresses_aborts (ns : List Node)
    (h : ns.any reportsZeroAddrs = true) :
    (Connect ns).1 = [] ∧ (Connect ns).2.isSome = true := by
  rcases collectPeerAddrs_err_of_zero ns h with ⟨e, he⟩
  simp [Connect, he]

/-- Witness for C2: a cluster where node `Z` reports zero addresses. -/
theorem connect_zero_addresses_aborts_witness :
    [nodeA, nodeZ].any reportsZeroAddrs = true ∧
    (Connect [nodeA, nodeZ]).1 = [] ∧ (Connect [nodeA, nodeZ]).2.isSome = true :=
  ⟨by decide, (connect_zero_addresses_aborts [nodeA, nodeZ] (by decide)).1,
    (connect_zero_addresses_aborts [nodeA, nodeZ] (by decide)).2⟩

theorem collectPeerAddrs_ok_of_all (ns : List Node)
    (h : ns.all hasAddrs = true) : collectPeerAddrs ns = .ok (ns.map dialString) := by
  induction ns with
  | nil => rfl
  | cons n rest ih =>
    simp only [List.all_cons, Bool.and_eq_true] at h
    unfold collectPeerAddrs
    cases hpi : n.peerInfo with
    | error e => exfalso; simp [hasAddrs, hpi] at h
    | ok pi =>
      cases ha : pi.addrs with
      | nil => exfalso; simp [hasAddrs, hpi, ha] at h
      | cons a as => simp [ha, ih h.2, dialString, hpi]

/-- C4: in every node collection whose nodes all report at least one
address, the collection phase stores node `i`'s dial string — first address,
`"/p2p/"`, peer identifier — at index `i` of the results list, and exactly
one connect task is dispatched to each node whose subject is the
comma-joined list of all dial strings. -/
theorem connect_dispatches_mesh_task (ns : List Node) (h : ns.all hasAddrs = true) :
    collectPeerAddrs ns = .ok (ns.map dialString) ∧
    (Connect ns).1 =
      ns.map (fun n =>
        (n, ⟨TaskConnect, String.intercalate "," (ns.map dialString)⟩)) := by
  have hc := collectPeerAddrs_ok_of_all ns h
  refine ⟨hc, ?_⟩
  simp [Connect, hc]

/-- Witness for C4: the two-node cluster `[A, B]`, whose joined dial string
list is computed explicitly. -/
theorem connect_dispatches_mesh_task_witness :
    [nodeA, nodeB].all hasAddrs = true ∧
    String.intercalate "," ([nodeA, nodeB].map dialString)
        = "ip4A/p2p/pidA,ip4B/p2p/pidB" ∧
    (Connect [nodeA, nodeB]).1 =
      [nodeA, nodeB].map (fun n =>
        (n, ⟨TaskConnect, String.intercalate "," ([nodeA, nodeB].map dialString)⟩)) :=
  ⟨by decide, by decide,
    (connect_dispatches_mesh_task [nodeA, nodeB] (by decide)).2⟩

/-! C1 — the seed loop overwrites, so only the last entry's task map
survives. -/

/-- C1: seed planning processes the definition's seed pairs sequentially in
their own order and assigns each pair's computed task map as the plan's Seed
map, so for a scenario with two seed entries whose pipelines succeed with
task maps `tm1` then `tm2`, the resulting plan's Seed map is `tm2` alone
(overwrite, not merge). -/
theorem plan_seed_last_entry_wins {Q A : Type}
    (queryParse : String → Except Err Q) (queryString : Q → String)
    (queryMatch : Q → List Node → Except Err (List Node))
    (actionParse : List (String × String) → String → Except Err A)
    (actionTasks : A → List Node → Except Err (List (String × Task)))
    (tsGet : String → Except Err Transformer)
    (sdef : ScenarioDefinition) (lset : List Node)
    (objs : List (String × String)) (q1 a1 q2 a2 : String)
    (tm1 tm2 : List (String × Task))
    (hm : materializeObjects tsGet sdef.objects [] = (objs, none))
    (hseed : sdef.seed = [(q1, a1), (q2, a2)])
    (h1 : seedStep queryParse queryMatch actionParse actionTasks objs lset (q1, a1) = .ok tm1)
    (h2 : seedStep queryParse queryMatch actionParse actionTasks objs lset (q2, a2) = .ok tm2) :
    (Plan queryParse queryString queryMatch actionParse actionTasks tsGet sdef lset).plan.seed
      = tm2 := by
  have hloop : seedLoop queryParse queryMatch actionParse actionTasks objs lset
      [(q1, a1), (q2, a2)] [] = (tm2, none) := by
    simp [seedLoop, h1, h2]
  simp only [Plan, hm, hseed, hloop]
  rcases hb : benchLoop queryParse queryString queryMatch actionParse actionTasks objs lset
      sdef.benchmark [] [] with ⟨bench, qs, berr⟩
  cases berr <;> simp [hb]

/-- Witness for C1: nodes `{A, B}` labeled `role=x` and `{C}` labeled
`role=y`, seed entries `role=x → taskFoo` then `role=y → taskBar`; the
resulting Seed map holds only `C`'s taskBar assignment. -/
theorem plan_seed_last_entry_wins_witness :
    seedStep qpOk qmByLabel apOk atPerNode [] lsetABC ("role=x", "taskFoo")
        = .ok [("A", ⟨"seed", "taskFoo"⟩), ("B", ⟨"seed", "taskFoo"⟩)] ∧
    seedStep qpOk qmByLabel apOk atPerNode [] lsetABC ("role=y", "taskBar")
        = .ok [("C", ⟨"seed", "taskBar"⟩)] ∧
    (Plan qpOk qsId qmByLabel apOk atPerNode tsOk sdefSeedTwo lsetABC).plan.seed
        = [("C", ⟨"seed", "taskBar"⟩)] :=
  ⟨rfl, rfl,
    plan_seed_last_entry_wins qpOk qsId qmByLabel apOk atPerNode tsOk sdefSeedTwo lsetABC
      [] "role=x" "taskFoo" "role=y" "taskBar"
      [("A", ⟨"seed", "taskFoo"⟩), ("B", ⟨"seed", "taskFoo"⟩)]
      [("C", ⟨"seed", "taskBar"⟩)] rfl rfl rfl rfl⟩

/-! C10 — a non-nil planner error implies a nil audit map. -/

/-- C10: whenever the scenario planner returns a non-nil error — from object
materialization or from either phase's query/action pipeline — the returned
query-audit map is nil. -/
theorem plan_error_nil_queries {Q A : Type}
    (queryParse : String → Except Err Q) (queryString : Q → String)
    (queryMatch : Q → List Node → Except Err (List Node))
    (actionParse : List (String × String) → String → Except Err A)
    (actionTasks : A → List Node → Except Err (List (String × Task)))
    (tsGet : String → Except Err Transformer)
    (sdef : ScenarioDefinition) (lset : List Node) (e : Err)
    (h : (Plan queryParse queryString queryMatch actionParse actionTasks tsGet
        sdef lset).err = some e) :
    (Plan queryParse queryString queryMatch actionParse actionTasks tsGet
        sdef lset).queries = none := by
  revert h
  unfold Plan
  split
  · exact fun _ => rfl
  split
  · exact fun _ => rfl
  split
  · exact fun _ => rfl
  · intro h
    simp at h

/-- Witness for C10: a failing query parser makes the planner fail, and the
audit map comes back nil. -/
theorem plan_error_nil_queries_witness :
    (Plan qpFail qsId qmByLabel apOk atPerNode tsOk sdefSeedTwo lsetABC).err
        = some "parse-fail" ∧
    (Plan qpFail qsId qmByLabel apOk atPerNode tsOk sdefSeedTwo lsetABC).queries = none :=
  ⟨rfl,
    plan_error_nil_queries qpFail qsId qmByLabel apOk atPerNode tsOk sdefSeedTwo lsetABC
      "parse-fail" rfl⟩

/-! C5 — object materialization: complete on success, aborting on failure. -/

theorem materializeObjects_preserves (tsGet : String → Except Err Transformer)
    (defs : List (String × ObjectDefinition)) :
    ∀ acc objs, materializeObjects tsGet defs acc = (objs, none) →
      ∀ k, (∀ p ∈ defs, p.1 ≠ k) → mapLookup objs k = mapLookup acc k := by
  induction defs with
  | nil =>
    intro acc objs h k _
    unfold materializeObjects at h
    cases h
    rfl
  | cons d rest ih =>
    rcases d with ⟨name, odef⟩
    intro acc objs h k hk
    unfold materializeObjects at h
    cases htg : tsGet odef.type with
    | error e => simp [htg] at h
    | ok t =>
      cases htr : t odef.source (AddOptionsFromDefinition odef) with
      | error e => simp [htg, htr] at h
      | ok c =>
        simp only [htg, htr] at h
        have hne : name ≠ k := hk (name, odef) (List.mem_cons_self _ _)
        have hrec := ih (mapInsert acc name c) objs h k
          (fun p hp => hk p (List.mem_cons_of_mem _ hp))
        rw [hrec, mapLookup_mapInsert_ne _ _ _ _ hne]

theorem materializeObjects_ok_length (tsGet : String → Except Err Transformer)
    (defs : List (String × ObjectDefinition)) :
    ∀ acc objs, materializeObjects tsGet defs acc = (objs, none) →
      (defs.map Prod.fst).Nodup → (∀ p ∈ defs, mapLookup acc p.1 = none) →
      objs.length = acc.length + defs.length := by
  induction defs with
  | nil =>
    intro acc objs h _ _
    unfold materializeObjects at h
    cases h
    simp
  | cons d rest ih =>
    rcases d with ⟨name, odef⟩
    intro acc objs h hnd hdisj
    unfold materializeObjects at h
    cases htg : tsGet odef.type with
    | error e => simp [htg] at h
    | ok t =>
      cases htr : t odef.source (AddOptionsFromDefinition odef) with
      | error e => simp [htg, htr] at h
      | ok c =>
        simp only [htg, htr] at h
        simp only [List.map_cons, List.nodup_cons] at hnd
        have hlen := length_mapInsert_of_not_mem acc name c
          (hdisj (name, odef) (List.mem_cons_self _ _))
        have hdisj2 : ∀ p ∈ rest, mapLookup (mapInsert acc name c) p.1 = none := by
          intro p hp
          have hne : name ≠ p.1 := by
            intro hcontra
            apply hnd.1
            rw [hcontra]
            exact List.mem_map_of_mem Prod.fst hp
          rw [mapLookup_mapInsert_ne _ _ _ _ hne]
          exact hdisj p (List.mem_cons_of_mem _ hp)
        have hrec := ih (mapInsert acc name c) objs h hnd.2 hdisj2
        rw [hrec, hlen]
        simp only [List.length_cons]
        omega

theorem materializeObjects_ok_mem (tsGet : String → Except Err Transformer)
    (defs : List (String × ObjectDefinition)) :
    ∀ acc objs, materializeObjects tsGet defs acc = (objs, none) →
      (defs.map Prod.fst).Nodup →
      ∀ p ∈ defs, (mapLookup objs p.1).isSome = true := by
  induction defs with
  | nil =>
    intro acc objs _ _ p hp
    simp at hp
  | cons d rest ih =>
    rcases d with ⟨name, odef⟩
    intro acc objs h hnd p hp
    unfold materializeObjects at h
    cases htg : tsGet odef.type with
    | error e => simp [htg] at h
    | ok t =>
      cases htr : t odef.source (AddOptionsFromDefinition odef) with
      | error e => simp [htg, htr] at h
      | ok c =>
        simp only [htg, htr] at h
        simp only [List.map_cons, List.nodup_cons] at hnd
        rcases List.mem_cons.mp hp with hp | hp
        · subst hp
          have hkeys : ∀ q ∈ rest, q.1 ≠ name := by
            intro q hq hcontra
            apply hnd.1
            rw [← hcontra]
            exact List.mem_map_of_mem Prod.fst hq
          have hpres := materializeObjects_preserves tsGet rest (mapInsert acc name c)
            objs h name hkeys
          rw [hpres, mapLookup_mapInsert_self]
          rfl
        · exact ih (mapInsert acc name c) objs h hnd.2 p hp

/-- C5: with unique object names (the spec's invariant), a successful
materialization leaves the plan's Objects table with exactly one CID entry
per object definition — the table's size equals the number of definitions
and every name resolves; and if any materialization fails, the whole
planning operation fails with that error, the seed and benchmark phases
never run (both task maps are empty) and the audit map is nil, so the
partially built table is unused downstream. -/
theorem plan_objects_all_or_abort {Q A : Type}
    (queryParse : String → Except Err Q) (queryString : Q → String)
    (queryMatch : Q → List Node → Except Err (List Node))
    (actionParse : List (String × String) → String → Except Err A)
    (actionTasks : A → List Node → Except Err (List (String × Task)))
    (tsGet : String → Except Err Transformer)
    (sdef : ScenarioDefinition) (lset : List Node) :
    ((sdef.objects.map Prod.fst).Nodup →
      ∀ objs, materializeObjects tsGet sdef.objects [] = (objs, none) →
        (Plan queryParse queryString queryMatch actionParse actionTasks tsGet
            sdef lset).plan.objects = objs ∧
        objs.length = sdef.objects.length ∧
        ∀ p ∈ sdef.objects, (mapLookup objs p.1).isSome = true) ∧
    (∀ objs e, materializeObjects tsGet sdef.objects [] = (objs, some e) →
      Plan queryParse queryString queryMatch actionParse actionTasks tsGet sdef lset
        = ⟨⟨objs, [], []⟩, none, some e⟩) := by
  constructor
  · intro hnd objs hm
    refine ⟨?_, ?_, ?_⟩
    · unfold Plan
      simp only [hm]
      rcases hs : seedLoop queryParse queryMatch actionParse actionTasks objs lset
          sdef.seed [] with ⟨seed, serr⟩
      cases serr with
      | none =>
        rcases hb : benchLoop queryParse queryString queryMatch actionParse actionTasks
            objs lset sdef.benchmark [] [] with ⟨bench, qs, berr⟩
        cases berr <;> simp [hs, hb]
      | some e => simp [hs]
    · have hlen := materializeObjects_ok_length tsGet sdef.objects [] objs hm hnd
        (fun p _ => rfl)
      simpa using hlen
    · exact materializeObjects_ok_mem tsGet sdef.objects [] objs hm hnd
  · intro objs e hm
    unfold Plan
    simp [hm]

/-- Witness for C5: a two-object scenario materializes both CIDs, and a
scenario whose object has the failing type aborts planning with that error,
empty task maps and a nil audit map. -/
theorem plan_objects_all_or_abort_witness :
    (Plan qpOk qsId qmByLabel apOk atPerNode tsOk sdefObjsTwo lsetABC).plan.objects
        = [("o1", "cid-s1"), ("o2", "cid-s2")] ∧
    Plan qpOk qsId qmByLabel apOk atPerNode tsFailBad sdefObjBad lsetABC
        = ⟨⟨[], [], []⟩, none, some "boom"⟩ :=
  ⟨((plan_objects_all_or_abort qpOk qsId qmByLabel apOk atPerNode tsOk sdefObjsTwo
        lsetABC).1 (by decide) [("o1", "cid-s1"), ("o2", "cid-s2")] rfl).1,
    (plan_objects_all_or_abort qpOk qsId qmByLabel apOk atPerNode tsFailBad sdefObjBad
        lsetABC).2 [] "boom" rfl⟩

/-! C6 — the benchmark loop's audit map. -/

theorem benchStep_ok_inv {Q A : Type} (queryParse : String → Except Err Q)
    (queryString : Q → String) (queryMatch : Q → List Node → Except Err (List Node))
    (actionParse : List (String × String) → String → Except Err A)
    (actionTasks : A → List Node → Except Err (List (String × Task)))
    (objects : List (String × String)) (lset : List Node) (qa : String × String)
    (r : String × List String × List (String × Task))
    (h : benchStep queryParse queryString queryMatch actionParse actionTasks objects
        lset qa = .ok r) :
    ∃ qry mset, queryParse qa.1 = .ok qry ∧ queryMatch qry lset = .ok mset ∧
      r.1 = queryString qry ∧ r.2.1 = mset.map (fun n => n.id) := by
  unfold benchStep at h
  cases hq : queryParse qa.1 with
  | error e => simp [hq] at h
  | ok qry =>
    simp only [hq] at h
    cases hm : queryMatch qry lset with
    | error e => simp [hm] at h
    | ok mset =>
      simp only [hm] at h
      cases ha : actionParse objects qa.2 with
      | error e => simp [ha] at h
      | ok action =>
        simp only [ha] at h
        cases ht : actionTasks action mset with
        | error e => simp [ht] at h
        | ok tm =>
          simp only [ht] at h
          cases h
          exact ⟨qry, mset, rfl, hm, rfl, rfl⟩

theorem benchLoop_ok_audit {Q A : Type} (queryParse : String → Except Err Q)
    (queryString : Q → String) (queryMatch : Q → List Node → Except Err (List Node))
    (actionParse : List (String × String) → String → Except Err A)
    (actionTasks : A → List Node → Except Err (List (String × Task)))
    (objects : List (String × String)) (lset : List Node)
    (entries : List (String × String)) :
    ∀ bench queries b2 q2,
      benchLoop queryParse queryString queryMatch actionParse actionTasks objects lset
        entries bench queries = (b2, q2, none) →
      auditMapSpec queryParse queryString queryMatch lset entries queries = some q2 := by
  induction entries with
  | nil =>
    intro bench queries b2 q2 h
    unfold benchLoop at h
    cases h
    rfl
  | cons qa rest ih =>
    intro bench queries b2 q2 h
    unfold benchLoop at h
    cases hb : benchStep queryParse queryString queryMatch actionParse actionTasks
        objects lset qa with
    | error e => simp [hb] at h
    | ok r =>
      simp only [hb] at h
      rcases benchStep_ok_inv queryParse queryString queryMatch actionParse actionTasks
        objects lset qa r hb with ⟨qry, mset, hq, hm, hr1, hr2⟩
      unfold auditMapSpec
      simp only [hq, hm]
      rw [← hr1, ← hr2]
      exact ih r.2.2 (mapInsert queries r.1 r.2.1) b2 q2 h

theorem auditMapSpec_preserves {Q : Type} (queryParse : String → Except Err Q)
    (queryString : Q → String) (queryMatch : Q → List Node → Except Err (List Node))
    (lset : List Node) (entries : List (String × String)) :
    ∀ acc out, auditMapSpec queryParse queryString queryMatch lset entries acc = some out →
      ∀ k, (mapLookup acc k).isSome = true → (mapLookup out k).isSome = true := by
  induction entries with
  | nil =>
    intro acc out h k hk
    unfold auditMapSpec at h
    cases h
    exact hk
  | cons qa rest ih =>
    intro acc out h k hk
    unfold auditMapSpec at h
    cases hq : queryParse qa.1 with
    | error e => simp [hq] at h
    | ok qry =>
      simp only [hq] at h
      cases hm : queryMatch qry lset with
      | error e => simp [hm] at h
      | ok mset =>
        simp only [hm] at h
        exact ih _ out h k (mapLookup_mapInsert_isSome _ _ _ _ hk)

theorem auditMapSpec_records {Q : Type} (queryParse : String → Except Err Q)
    (queryString : Q → String) (queryMatch : Q → List Node → Except Err (List Node))
    (lset : List Node) (entries : List (String × String)) :
    ∀ acc out, auditMapSpec queryParse queryString queryMatch lset entries acc = some out →
      ∀ qa ∈ entries, ∀ qry, queryParse qa.1 = .ok qry →
        (mapLookup out (queryString qry)).isSome = true := by
  induction entries with
  | nil =>
    intro acc out _ qa hqa
    simp at hqa
  | cons qa0 rest ih =>
    intro acc out h qa hqa qry hq
    unfold auditMapSpec at h
    cases hq0 : queryParse qa0.1 with
    | error e => simp [hq0] at h
    | ok qry0 =>
      simp only [hq0] at h
      cases hm : queryMatch qry0 lset with
      | error e => simp [hm] at h
      | ok mset =>
        simp only [hm] at h
        rcases List.mem_cons.mp hqa with hqa | hqa
        · subst hqa
          rw [hq0] at hq
          cases hq
          exact auditMapSpec_preserves queryParse queryString queryMatch lset rest _ out h
            (queryString qry) (by rw [mapLookup_mapInsert_self]; rfl)
        · exact ih _ out h qa hqa qry hq

/-- C6: when planning succeeds, the returned audit map records, for each
processed benchmark-phase pair, an entry keyed by the parsed query's
canonical string holding the matched node identifiers, and this map equals
a computation over the query engine alone — independent of the action
resolver and of the plan — and is returned to the caller alongside the
plan. -/
theorem plan_benchmark_audit_map {Q A : Type} (queryParse : String → Except Err Q)
    (queryString : Q → String) (queryMatch : Q → List Node → Except Err (List Node))
    (actionParse : List (String × String) → String → Except Err A)
    (actionTasks : A → List Node → Except Err (List (String × Task)))
    (tsGet : String → Except Err Transformer)
    (sdef : ScenarioDefinition) (lset : List Node)
    (hp : (Plan queryParse queryString queryMatch actionParse actionTasks tsGet
        sdef lset).err = none) :
    ∃ out, (Plan queryParse queryString queryMatch actionParse actionTasks tsGet
        sdef lset).queries = some out ∧
      auditMapSpec queryParse queryString queryMatch lset sdef.benchmark [] = some out ∧
      ∀ qa ∈ sdef.benchmark, ∀ qry, queryParse qa.1 = .ok qry →
        (mapLookup out (queryString qry)).isSome = true := by
  unfold Plan at hp ⊢
  rcases hmo : materializeObjects tsGet sdef.objects [] with ⟨objs, oerr⟩
  cases oerr with
  | some e => simp [hmo] at hp
  | none =>
    simp only [hmo] at hp ⊢
    rcases hsl : seedLoop queryParse queryMatch actionParse actionTasks objs lset
        sdef.seed [] with ⟨seed, serr⟩
    cases serr with
    | some e => simp [hsl] at hp
    | none =>
      simp only [hsl] at hp ⊢
      rcases hbl : benchLoop queryParse queryString queryMatch actionParse actionTasks
          objs lset sdef.benchmark [] [] with ⟨bench, qs, berr⟩
      cases berr with
      | some e => simp [hbl] at hp
      | none =>
        simp only [hbl]
        have haudit := benchLoop_ok_audit queryParse queryString queryMatch actionParse
          actionTasks objs lset sdef.benchmark [] [] bench qs hbl
        refine ⟨qs, rfl, haudit, ?_⟩
        intro qa hqa qry hq
        exact auditMapSpec_records queryParse queryString queryMatch lset sdef.benchmark
          [] qs haudit qa hqa qry hq

/-- Witness for C6: two benchmark entries produce the two-entry audit map,
returned alongside a successful plan. -/
theorem plan_benchmark_audit_map_witness :
    (Plan qpOk qsId qmByLabel apOk atPerNode tsOk sdefBenchTwo lsetABC).err = none ∧
    (Plan qpOk qsId qmByLabel apOk atPerNode tsOk sdefBenchTwo lsetABC).queries
        = some [("role=x", ["A", "B"]), ("role=y", ["C"])] ∧
    ∃ out, (Plan qpOk qsId qmByLabel apOk atPerNode tsOk sdefBenchTwo lsetABC).queries
          = some out ∧
      auditMapSpec qpOk qsId qmByLabel lsetABC sdefBenchTwo.benchmark [] = some out ∧
      ∀ qa ∈ sdefBenchTwo.benchmark, ∀ qry, qpOk qa.1 = .ok qry →
        (mapLookup out (qsId qry)).isSome = true :=
  ⟨rfl, rfl,
    plan_benchmark_audit_map qpOk qsId qmByLabel apOk atPerNode tsOk sdefBenchTwo
      lsetABC rfl⟩

/-! C9, C7, C3 — the benchmark orchestrator. -/

/-- C9: whenever a run reaches persistence, the benchmark identifier is the
cluster id, scenario id and nanosecond timestamp concatenated (no
uniqueness check — the store state `db` is arbitrary, a colliding id is
silently overwritten), and the record persisted before execution carries
status `Running`, the fetched cluster and scenario, the computed plan, and
exactly the labels benchmark id, cluster id, scenario id; execution then
proceeds on the store holding exactly that record. -/
theorem benchmark_record_identity_and_shape {Q A : Type} (inp : HandlerInput Q A)
    (db : DB) (scenario : Scenario) (cluster : Cluster) (ns : List Node)
    (hs : inp.getScenario inp.scenarioId = .ok scenario)
    (hc : inp.getCluster inp.clusterId = .ok cluster)
    (hn : inp.listNodes inp.clusterId = .ok ns)
    (hr : resetConnectErr inp ns = none)
    (hp : (planOf inp scenario ns).err = none)
    (hcb : inp.faults.createBenchmarkErr = none) :
    postBenchmarksCreate inp db =
      finishRun inp
        { db with benchmarks :=
            (mapInsert db.benchmarks (benchmarkId inp)
              (persistedBenchmark inp scenario cluster (planOf inp scenario ns).plan)) }
        (persistedBenchmark inp scenario cluster (planOf inp scenario ns).plan)
        (planOf inp scenario ns) ns ∧
    benchmarkId inp = inp.clusterId ++ "-" ++ inp.scenarioId ++ "-" ++ toString inp.nowNano ∧
    persistedBenchmark inp scenario cluster (planOf inp scenario ns).plan =
      ⟨benchmarkId inp, BenchmarkRunning, cluster, scenario, (planOf inp scenario ns).plan,
        [benchmarkId inp, inp.clusterId, inp.scenarioId]⟩ := by
  refine ⟨?_, rfl, rfl⟩
  unfold postBenchmarksCreate
  simp only [hs, hc, hn, hr, hp, createBenchmark, hcb, persistedBenchmark, benchmarkId]

/-- Witness for C9: the successful base input over the three-node cluster,
with benchmark id `clus-scen-42`. -/
theorem benchmark_record_identity_and_shape_witness :
    postBenchmarksCreate baseInput dbEmpty =
      finishRun baseInput
        { dbEmpty with benchmarks :=
            (mapInsert dbEmpty.benchmarks (benchmarkId baseInput)
              (persistedBenchmark baseInput scenC clusC (planOf baseInput scenC lsetABC).plan)) }
        (persistedBenchmark baseInput scenC clusC (planOf baseInput scenC lsetABC).plan)
        (planOf baseInput scenC lsetABC) lsetABC ∧
    benchmarkId baseInput = "clus-scen-42" ∧
    (persistedBenchmark baseInput scenC clusC (planOf baseInput scenC lsetABC).plan).status
        = "Running" :=
  ⟨(benchmark_record_identity_and_shape baseInput dbEmpty scenC clusC lsetABC
      rfl rfl rfl rfl rfl rfl).1, rfl, rfl⟩

/-- C7: if plan execution fails after the benchmark record was persisted
with status `Running`, the handler returns the wrapped execution error, the
store gained no report (its reports table is unchanged), and the benchmark
record is still present with status `Running` — an orphaned run. -/
theorem run_failure_leaves_running_no_report {Q A : Type} (inp : HandlerInput Q A)
    (db : DB) (scenario : Scenario) (cluster : Cluster) (ns : List Node) (e : Err)
    (hs : inp.getScenario inp.scenarioId = .ok scenario)
    (hc : inp.getCluster inp.clusterId = .ok cluster)
    (hn : inp.listNodes inp.clusterId = .ok ns)
    (hr : resetConnectErr inp ns = none)
    (hp : (planOf inp scenario ns).err = none)
    (hcb : inp.faults.createBenchmarkErr = none)
    (hrun : inp.runScenario ns (planOf inp scenario ns).plan (seederAddrs inp)
        = .error e) :
    (postBenchmarksCreate inp db).2 = some (wrapErr "failed to run scenario plan" e) ∧
    (postBenchmarksCreate inp db).1.reports = db.reports ∧
    mapLookup (postBenchmarksCreate inp db).1.benchmarks (benchmarkId inp)
      = some (persistedBenchmark inp scenario cluster (planOf inp scenario ns).plan) ∧
    (persistedBenchmark inp scenario cluster (planOf inp scenario ns).plan).status
      = BenchmarkRunning := by
  have h1 : postBenchmarksCreate inp db =
      ({ db with benchmarks :=
          (mapInsert db.benchmarks (benchmarkId inp)
            (persistedBenchmark inp scenario cluster (planOf inp scenario ns).plan)) },
        some (wrapErr "failed to run scenario plan" e)) := by
    unfold postBenchmarksCreate finishRun
    simp only [hs, hc, hn, hr, hp, createBenchmark, hcb, hrun, persistedBenchmark,
      benchmarkId]
  rw [h1]
  exact ⟨rfl, rfl, mapLookup_mapInsert_self _ _ _, rfl⟩

/-- Witness for C7: execution fails on the base input; the store holds the
`Running` record `clus-scen-42` and no report. -/
theorem run_failure_leaves_running_no_report_witness :
    (postBenchmarksCreate runFailInput dbEmpty).2
        = some "failed to run scenario plan: exec-fail" ∧
    (postBenchmarksCreate runFailInput dbEmpty).1.reports = [] ∧
    mapLookup (postBenchmarksCreate runFailInput dbEmpty).1.benchmarks "clus-scen-42"
      = some (persistedBenchmark runFailInput scenC clusC
          (planOf runFailInput scenC lsetABC).plan) ∧
    (persistedBenchmark runFailInput scenC clusC
        (planOf runFailInput scenC lsetABC).plan).status = "Running" :=
  run_failure_leaves_running_no_report runFailInput dbEmpty scenC clusC lsetABC
    "exec-fail" rfl rfl rfl rfl rfl rfl rfl

/-- C3: the final persistence step runs report creation and the
status-to-`Done` benchmark update in one atomic transaction: if report
creation succeeds but the benchmark update fails, everything is rolled back
— the handler returns the wrapped error, no report is visible, and the
benchmark record still has status `Running`; if both succeed, the report
and the `Done` record are both visible and the handler returns no error. -/
theorem persist_report_and_done_atomic {Q A : Type} (inp : HandlerInput Q A)
    (db : DB) (scenario : Scenario) (cluster : Cluster) (ns : List Node)
    (execution : Execution)
    (hs : inp.getScenario inp.scenarioId = .ok scenario)
    (hc : inp.getCluster inp.clusterId = .ok cluster)
    (hn : inp.listNodes inp.clusterId = .ok ns)
    (hr : resetConnectErr inp ns = none)
    (hp : (planOf inp scenario ns).err = none)
    (hcb : inp.faults.createBenchmarkErr = none)
    (hrun : inp.runScenario ns (planOf inp scenario ns).plan (seederAddrs inp)
        = .ok execution) :
    (∀ e, inp.faults.createReportErr = none → inp.faults.updateBenchmarkErr = some e →
      (postBenchmarksCreate inp db).2 = some (wrapErr "failed to update benchmark" e) ∧
      (postBenchmarksCreate inp db).1.reports = db.reports ∧
      mapLookup (postBenchmarksCreate inp db).1.benchmarks (benchmarkId inp)
        = some (persistedBenchmark inp scenario cluster (planOf inp scenario ns).plan) ∧
      (persistedBenchmark inp scenario cluster (planOf inp scenario ns).plan).status
        = BenchmarkRunning) ∧
    (inp.faults.createReportErr = none → inp.faults.updateBenchmarkErr = none →
      (postBenchmarksCreate inp db).2 = none ∧
      mapLookup (postBenchmarksCreate inp db).1.reports (benchmarkId inp)
        = some (mkReport inp execution (planOf inp scenario ns)) ∧
      mapLookup (postBenchmarksCreate inp db).1.benchmarks (benchmarkId inp)
        = some { (persistedBenchmark inp scenario cluster (planOf inp scenario ns).plan)
            with status := BenchmarkDone }) := by
  constructor
  · intro e hcr hub
    have h1 : postBenchmarksCreate inp db =
        ({ db with benchmarks :=
            (mapInsert db.benchmarks (benchmarkId inp)
              (persistedBenchmark inp scenario cluster (planOf inp scenario ns).plan)) },
          some (wrapErr "failed to update benchmark" e)) := by
      unfold postBenchmarksCreate finishRun dbUpdate txBody createReport updateBenchmark
      simp only [hs, hc, hn, hr, hp, createBenchmark, hcb, hrun, hcr, hub,
        persistedBenchmark, benchmarkId]
    rw [h1]
    exact ⟨rfl, rfl, mapLookup_mapInsert_self _ _ _, rfl⟩
  · intro hcr hub
    have h1 : postBenchmarksCreate inp db =
        ({ benchmarks :=
            (mapInsert
              (mapInsert db.benchmarks (benchmarkId inp)
                (persistedBenchmark inp scenario cluster (planOf inp scenario ns).plan))
              (benchmarkId inp)
              { (persistedBenchmark inp scenario cluster (planOf inp scenario ns).plan)
                  with status := BenchmarkDone }),
            reports :=
            (mapInsert db.reports (benchmarkId inp)
              (mkReport inp execution (planOf inp scenario ns))) }, none) := by
      unfold postBenchmarksCreate finishRun dbUpdate txBody createReport updateBenchmark
      simp only [hs, hc, hn, hr, hp, createBenchmark, hcb, hrun, hcr, hub,
        persistedBenchmark, benchmarkId]
    rw [h1]
    exact ⟨rfl, mapLookup_mapInsert_self _ _ _, mapLookup_mapInsert_self _ _ _⟩

/-- Witness for C3: on the base input the transaction commits — report and
`Done` record both visible; with the injected update failure it rolls back —
the wrapped error is returned, no report exists, and `clus-scen-42` is still
`Running`. -/
theorem persist_report_and_done_atomic_witness :
    ((postBenchmarksCreate baseInput dbEmpty).2 = none ∧
      mapLookup (postBenchmarksCreate baseInput dbEmpty).1.reports "clus-scen-42"
        = some (mkReport baseInput execC (planOf baseInput scenC lsetABC)) ∧
      mapLookup (postBenchmarksCreate baseInput dbEmpty).1.benchmarks "clus-scen-42"
        = some { (persistedBenchmark baseInput scenC clusC
            (planOf baseInput scenC lsetABC).plan) with status := "Done" }) ∧
    ((postBenchmarksCreate ubFailInput dbEmpty).2
        = some "failed to update benchmark: ub-fail" ∧
      (postBenchmarksCreate ubFailInput dbEmpty).1.reports = [] ∧
      mapLookup (postBenchmarksCreate ubFailInput dbEmpty).1.benchmarks "clus-scen-42"
        = some (persistedBenchmark ubFailInput scenC clusC
            (planOf ubFailInput scenC lsetABC).plan)) :=
  ⟨(persist_report_and_done_atomic baseInput dbEmpty scenC clusC lsetABC execC
      rfl rfl rfl rfl rfl rfl rfl).2 rfl rfl,
    by
      have h := (persist_report_and_done_atomic ubFailInput dbEmpty scenC clusC lsetABC
        execC rfl rfl rfl rfl rfl rfl rfl).1 "ub-fail" rfl rfl
      exact ⟨h.1, h.2.1, h.2.2.1⟩⟩

end P2plab
